import Mathlib

/-!
A shallow embedding of the Edge-Config redirect resolution engine
(`EdgeConfigRedirectsMiddleware`): pattern compilation, four-candidate rule
matching with a locale filter, target rewriting (site-language token,
absolute-URL passthrough, region-segment stripping, pattern substitution,
query merging), outcome classification, and the fail-open handler wrapper.

External collaborators are modelled explicitly:
* the `regex-parser` npm package plus the JS `RegExp` engine are an abstract
  `RegexEngine` (its `test`/`replace` may fail, modelling the `RegExp`
  constructor throwing on a syntactically invalid pattern);
* the Edge-Config read plus `JSON.parse` are an `Except Unit (Option (List
  RedirectInfo))` input (`error` = the read or the parse threw, `ok none` =
  absent/falsy value, `ok (some rules)` = a parsed rule array);
* `NextURL` is a record of the fields the handler touches (pathname, search
  params, locale, and an href override used by the absolute-target branch);
  its serialization is modelled minimally (scheme/host + path + query) and
  percent-encoding on output is not modelled;
* string case-mapping is ASCII (`Char.toLower`), matching the JS behaviour on
  the ASCII strings involved.
-/

/-! ## String helpers (character-list based, mirroring the JS string ops) -/

/-- Lower-case a string character-wise (ASCII), as `String.prototype.toLowerCase`
does on ASCII input. -/
def lcStr (s : String) : String := String.mk (s.toList.map Char.toLower)

/-- `pat` is a prefix of `s` up to ASCII case. -/
def lowerPre (pat s : List Char) : Bool :=
  (pat.map Char.toLower).isPrefixOf (s.map Char.toLower)

/-- First index at which `pat` occurs in `s`, comparing case-insensitively. -/
def ciFindIdx : List Char → List Char → Option Nat
  | [], pat => if pat.isEmpty then some 0 else none
  | c :: cs, pat =>
    if lowerPre pat (c :: cs) then some 0 else (ciFindIdx cs pat).map (· + 1)

/-- First index at which `pat` occurs in `s` (case-sensitive). -/
def csFindIdx : List Char → List Char → Option Nat
  | [], pat => if pat.isEmpty then some 0 else none
  | c :: cs, pat =>
    if pat.isPrefixOf (c :: cs) then some 0 else (csFindIdx cs pat).map (· + 1)

/-- Case-insensitive substring test: `new RegExp(/\$siteLang/, 'i').test s`
style containment. -/
def ciContainsStr (s pat : String) : Bool := (ciFindIdx s.toList pat.toList).isSome

/-- Case-sensitive substring test: JS `String.prototype.includes`. -/
def csContainsStr (s pat : String) : Bool := (csFindIdx s.toList pat.toList).isSome

/-- Replace the first case-insensitive occurrence of `pat` in `s` by `repl`
(JS `s.replace(/pat/i, repl)` with `repl` taken literally). -/
def ciReplaceFirst (s pat repl : String) : String :=
  match ciFindIdx s.toList pat.toList with
  | some i =>
    String.mk (s.toList.take i) ++ repl ++
      String.mk (s.toList.drop (i + pat.toList.length))
  | none => s

/-- Replace the first (case-sensitive) occurrence of `pat` in `s` by `repl`
(JS `s.replace(pat, repl)` with a plain-string search argument). -/
def replaceFirst (s pat repl : String) : String :=
  match csFindIdx s.toList pat.toList with
  | some i =>
    String.mk (s.toList.take i) ++ repl ++
      String.mk (s.toList.drop (i + pat.toList.length))
  | none => s

/-- Split a character list on a separator character, JS
`String.prototype.split` style (always at least one piece; empty pieces
between adjacent separators are kept). -/
def splitCh (c : Char) : List Char → List (List Char)
  | [] => [[]]
  | x :: xs =>
    let r := splitCh c xs
    if x = c then [] :: r else (x :: r.headD []) :: r.tail

/-- JS `s.split('?')`. -/
def splitQ (s : String) : List String := (splitCh '?' s.toList).map String.mk

/-- JS `s.split('&')`. -/
def splitAmp (s : String) : List String := (splitCh '&' s.toList).map String.mk

/-- JS `s.split('/')`. -/
def splitSlash (s : String) : List String := (splitCh '/' s.toList).map String.mk

/-- The value of a hex digit, if `c` is one. -/
def hexVal (c : Char) : Option Nat :=
  if '0' ≤ c ∧ c ≤ '9' then some (c.toNat - '0'.toNat)
  else if 'a' ≤ c ∧ c ≤ 'f' then some (c.toNat - 'a'.toNat + 10)
  else if 'A' ≤ c ∧ c ≤ 'F' then some (c.toNat - 'A'.toNat + 10)
  else none

/-- Strict percent-decoding of a character list; `none` models
`decodeURIComponent` throwing `URIError` on a malformed escape. (Multi-byte
UTF-8 escape sequences are simplified to byte-per-character decoding.) -/
def pctDecode : List Char → Option (List Char)
  | [] => some []
  | '%' :: a :: b :: rest =>
    match hexVal a, hexVal b with
    | some x, some y => (pctDecode rest).map (Char.ofNat (16 * x + y) :: ·)
    | _, _ => none
  | '%' :: _ => none
  | c :: rest => (pctDecode rest).map (c :: ·)

/-- JS `decodeURIComponent`; `error` models the thrown `URIError`. -/
def decodeURIComponent (s : String) : Except Unit String :=
  match pctDecode s.toList with
  | some l => .ok (String.mk l)
  | none => .error ()

/-- Lenient percent-plus decoding used by `URLSearchParams` (never throws:
malformed escapes are kept literally, `+` becomes a space). -/
def lenientDecode : List Char → List Char
  | [] => []
  | '%' :: a :: b :: rest =>
    match hexVal a, hexVal b with
    | some x, some y => Char.ofNat (16 * x + y) :: lenientDecode rest
    | _, _ => '%' :: lenientDecode (a :: b :: rest)
  | '+' :: rest => ' ' :: lenientDecode rest
  | c :: rest => c :: lenientDecode rest

/-- Decode one `URLSearchParams` component. -/
def decodeParam (s : String) : String := String.mk (lenientDecode s.toList)

/-- Parse a query string as `new URLSearchParams(s)` does: strip one leading
`?`, split on `&`, drop empty pieces, split each piece at its first `=`. -/
def parseQuery (s : String) : List (String × String) :=
  let body := match s.toList with
    | '?' :: rest => rest
    | l => l
  (splitCh '&' body).filterMap fun part =>
    if part.isEmpty then none
    else
      let k := part.takeWhile (· ≠ '=')
      let rest := part.dropWhile (· ≠ '=')
      some (decodeParam (String.mk k), decodeParam (String.mk (rest.drop 1)))

/-- Render search params back into a query string (`URLSearchParams.toString`
prefixed by `?` when non-empty; output percent-encoding is not modelled). -/
def renderQuery : List (String × String) → String
  | [] => ""
  | ps => "?" ++ String.intercalate "&" (ps.map fun kv => kv.1 ++ "=" ++ kv.2)

/-! ## Data model -/

/-- A redirect rule as stored in Edge Config (`RedirectInfo` from
`@sitecore-jss/sitecore-jss/site`). -/
structure RedirectInfo where
  pattern : String
  target : String
  redirectType : String
  locale : Option String
  isQueryStringPreserved : Bool
deriving DecidableEq

/-- `REDIRECT_TYPE_301` constant from `@sitecore-jss/sitecore-jss/site`. -/
def REDIRECT_TYPE_301 : String := "REDIRECT_301"

/-- `REDIRECT_TYPE_302` constant from `@sitecore-jss/sitecore-jss/site`. -/
def REDIRECT_TYPE_302 : String := "REDIRECT_302"

/-- `REDIRECT_TYPE_SERVER_TRANSFER` constant from
`@sitecore-jss/sitecore-jss/site`. -/
def REDIRECT_TYPE_SERVER_TRANSFER : String := "SERVER_TRANSFER"

/-- The per-request data the handler reads from its collaborators:
`req.nextUrl.pathname`, `req.nextUrl.search`, `req.nextUrl.locale`,
`this.getLanguage(req)`, `getHostHeader(req) || defaultHostname`,
`site.language` (from `getSite`), and the three skip guards
(`config.disabled(req, res)`, `this.isPreview(req)`,
`this.excludeRoute(pathname)`), all pre-computed by the caller/framework. -/
structure Request where
  pathname : String
  search : String
  locale : String
  language : String
  hostname : String
  siteLanguage : String
  disabled : Bool
  isPreview : Bool
  excluded : Bool

/-- The mutable `NextURL` fields the handler touches.  `hrefAbs` records an
absolute-target `url.href = target` assignment, which overrides component
serialization. -/
structure Url where
  hrefAbs : Option String
  pathname : String
  searchParams : List (String × String)
  locale : String
deriving DecidableEq

/-- The resolution outcome: `NextResponse.redirect` with a status,
`NextResponse.rewrite`, or the unmodified next-response
(`res || NextResponse.next()`). -/
inductive Outcome where
  | Redirect : String → Nat → Outcome
  | Rewrite : String → Outcome
  | Pass : Outcome
deriving DecidableEq

/-! ## Pattern Compiler

The transformation chain applied to `redirect.pattern` inside `getRedirects`
(lines 184–190), one definition per `.replace` step. -/

/-- `pattern.replace(RegExp("^[^]?/LANG/", 'gi'), '')`: strip a prefix made of
one optional arbitrary character followed by `/LANG/` (ASCII
case-insensitive); the language is interpolated literally.  The regex is
`^`-anchored, so at most one replacement happens; `[^]?` is greedy, so the
one-extra-character form is tried first. -/
def stripLangLead (language pattern : String) : String :=
  let tok := ("/" ++ language ++ "/").toList
  let pl := pattern.toList
  if lowerPre tok pl.tail then String.mk (pl.tail.drop tok.length)
  else if lowerPre tok pl then String.mk (pl.drop tok.length)
  else pattern

/-- `.replace(/^\/|\/$/g, '')`: strip one leading and one trailing slash
(non-overlapping, scanning the original string). -/
def stripSlashes (s : String) : String :=
  let s1 := if s.toList.take 1 = ['/'] then String.mk (s.toList.drop 1) else s
  if s1.toList.getLast? = some '/' then
    String.mk (s1.toList.take (s1.toList.length - 1))
  else s1

/-- `.replace(/^\^\/|\/\$$/g, '')`: strip a leading `^/` and a trailing `/$`. -/
def stripAnchorSlash (s : String) : String :=
  let s1 := if s.toList.take 2 = ['^', '/'] then String.mk (s.toList.drop 2) else s
  let l := s1.toList
  if l.length ≥ 2 ∧ l.drop (l.length - 2) = ['/', '$'] then
    String.mk (l.take (l.length - 2))
  else s1

/-- `.replace(/^\^|\$$/g, '')`: strip a leading `^` and a trailing `$`. -/
def stripAnchors (s : String) : String :=
  let s1 := if s.toList.take 1 = ['^'] then String.mk (s.toList.drop 1) else s
  if s1.toList.getLast? = some '$' then
    String.mk (s1.toList.take (s1.toList.length - 1))
  else s1

/-- `.replace(/(?<!\\)\?/g, '\\?')`: escape every `?` whose preceding
character in the original string is not a backslash. -/
def escQ : Option Char → List Char → List Char
  | _, [] => []
  | prev, c :: cs =>
    if c = '?' ∧ prev ≠ some '\\' then '\\' :: '?' :: escQ (some '?') cs
    else c :: escQ (some c) cs

/-- `.replace(/\$\/gi$/g, '')`: strip a trailing `$/gi` artifact. -/
def stripDollarGi (s : String) : String :=
  let l := s.toList
  if l.length ≥ 4 ∧ l.drop (l.length - 4) = ['$', '/', 'g', 'i'] then
    String.mk (l.take (l.length - 4))
  else s

/-- The full compilation of an authored pattern into the `/^\/…[\/]?$/gi`
string handed to `regexParser` (lines 184–190 of the middleware). -/
def compilePattern (language pattern : String) : String :=
  let p0 := stripLangLead language pattern
  let p1 := stripSlashes p0
  let p2 := stripAnchorSlash p1
  let p3 := stripAnchors p2
  let p4 := String.mk (escQ none p3.toList)
  let p5 := stripDollarGi p4
  "/^\\/" ++ p5 ++ "[\\/]?$/gi"

/-! ## Regex engine interface

`regexParser(p).test s` and `source.replace(regexParser(p), repl)` live in the
`regex-parser` package and the JS `RegExp` runtime; the engine abstracts them.
`Except.error` models `regexParser` (the `RegExp` constructor) throwing a
`SyntaxError` on an invalid pattern string. -/

structure RegexEngine where
  test : String → String → Except Unit Bool
  replace : String → String → String → Except Unit String

/-! ## Rule Matcher (`getRedirects`) -/

/-- The locale filter of the `find` callback:
`redirect.locale ? redirect.locale.toLowerCase() === req.nextUrl.locale.toLowerCase() : true`. -/
def localeFilter (r : RedirectInfo) (req : Request) : Bool :=
  match r.locale with
  | some l => lcStr l == lcStr req.locale
  | none => true

/-- A rule as returned by the matcher: `find` mutates `redirect.pattern` into
its compiled form before testing, and the matched element is returned with
that mutation in place. -/
def compiledRule (req : Request) (r : RedirectInfo) : RedirectInfo :=
  { r with pattern := compilePattern req.language r.pattern }

/-- The body of the `find` callback: test the compiled pattern against the
four candidate strings (short-circuiting `||`), then apply the locale
filter. -/
def ruleMatches (eng : RegexEngine) (req : Request) (r : RedirectInfo) :
    Except Unit Bool := do
  let cp := compilePattern req.language r.pattern
  let t1 ← eng.test cp req.pathname
  let m ←
    if t1 then pure true
    else do
      let t2 ← eng.test cp (req.pathname ++ req.search)
      if t2 then pure true
      else do
        let t3 ← eng.test cp ("/" ++ req.locale ++ req.pathname)
        if t3 then pure true
        else eng.test cp ("/" ++ req.locale ++ req.pathname ++ req.search)
  pure (m && localeFilter r req)

/-- `modifyRedirects.find(...)`: first rule whose callback returns true,
with the callback's pattern mutation applied to the returned element.  A
callback exception (invalid pattern) aborts the whole search. -/
def findRedirect (eng : RegexEngine) (req : Request) :
    List RedirectInfo → Except Unit (Option RedirectInfo)
  | [] => .ok none
  | r :: rs => do
    let m ← ruleMatches eng req r
    if m then pure (some (compiledRule req r)) else findRedirect eng req rs

/-- `getRedirects`: the fetched value is the composite of the Edge-Config
read and `JSON.parse` (`error` = either threw; `ok none` = absent/falsy
value); an absent or empty catalog yields no match, otherwise the rules are
searched in catalog order. -/
def getRedirects (eng : RegexEngine) (req : Request)
    (fetched : Except Unit (Option (List RedirectInfo))) :
    Except Unit (Option RedirectInfo) :=
  match fetched with
  | .error e => .error e
  | .ok none => .ok none
  | .ok (some rules) =>
    match rules with
    | [] => .ok none
    | _ :: _ => findRedirect eng req rules

/-! ## Target Rewriter and Outcome Classifier (`edgeConfigHandler`) -/

/-- `REGEXP_ABSOLUTE_URL = /^(?:[a-z]+:)?\/\//i`: an optional all-letter
scheme followed by `//`, at the start of the string. -/
def isAbsoluteUrl (s : String) : Bool :=
  let l := s.toList
  if ['/', '/'].isPrefixOf l then true
  else
    let letters := l.takeWhile Char.isAlpha
    !letters.isEmpty && [':', '/', '/'].isPrefixOf (l.drop letters.length)

/-- `REGEXP_CONTEXT_SITE_LANG.test target`: the target contains the
`$siteLang` token (case-insensitively). -/
def hasSiteLang (target : String) : Bool := ciContainsStr target "$siteLang"

/-- Lines 87–98: replace the first `$siteLang` token with `site.language`,
unless the target is an absolute URL that references the current hostname. -/
def siteLangStep (req : Request) (target : String) : String :=
  if hasSiteLang target && !(isAbsoluteUrl target && csContainsStr target req.hostname)
  then ciReplaceFirst target "$siteLang" req.siteLanguage
  else target

/-- Lines 107–111: if the target's first path segment
(`target.split('/')[1]`) is one of the configured regions, record it as the
URL locale and remove its first occurrence from the target. -/
def regionStep (regions : List String) (locale target : String) : String × String :=
  match (splitSlash target).get? 1 with
  | some seg =>
    if regions.contains seg then (replaceFirst target ("/" ++ seg) "", seg)
    else (target, locale)
  | none => (target, locale)

/-- `.replace(/^\/\//, '/')`: collapse a leading `//` to `/`. -/
def collapseSlashes (s : String) : String :=
  match s.toList with
  | '/' :: '/' :: rest => String.mk ('/' :: rest)
  | _ => s

/-- `target[0]` of line 116–117: the path part of the substituted and
collapsed string. -/
def pathPart (s : String) : String := (splitQ (collapseSlashes s)).headD ""

/-- `target[1]` of lines 118–123: the query parameters introduced by the
substituted target (empty when the split has no truthy second piece). -/
def templateParams (s : String) : List (String × String) :=
  match (splitQ (collapseSlashes s)).get? 1 with
  | some q => if q == "" then [] else parseQuery q
  | none => []

/-- Lines 100–124: build the rewritten URL for a matched rule (`r` is the
rule as returned by the matcher, i.e. with the compiled pattern). -/
def buildUrl (eng : RegexEngine) (regions : List String) (req : Request)
    (r : RedirectInfo) : Except Unit Url :=
  let target1 := siteLangStep req r.target
  if isAbsoluteUrl target1 then
    .ok { hrefAbs := some target1, pathname := req.pathname,
          searchParams := parseQuery req.search, locale := req.locale }
  else do
    let source := req.pathname ++ req.search
    let params0 := if r.isQueryStringPreserved then parseQuery req.search else []
    let rs := regionStep regions req.locale target1
    let substituted ← eng.replace r.pattern rs.1 source
    pure { hrefAbs := none, pathname := pathPart substituted,
           searchParams := params0 ++ templateParams substituted, locale := rs.2 }

/-- The serialized `url.href` (minimal `NextURL` model: an href override from
the absolute branch wins; otherwise scheme/host + path + rendered query; the
i18n locale prefixing of `NextURL` serialization is not modelled — the locale
is tracked as a separate field). -/
def hrefOf (req : Request) (u : Url) : String :=
  match u.hrefAbs with
  | some h => h
  | none => "https://" ++ req.hostname ++ u.pathname ++ renderQuery u.searchParams

/-- Line 126: `decodeURIComponent(url.href)`. -/
def rewriteUrl (eng : RegexEngine) (regions : List String) (req : Request)
    (r : RedirectInfo) : Except Unit String := do
  let u ← buildUrl eng regions req r
  decodeURIComponent (hrefOf req u)

/-- Lines 129–146: the `switch (existsRedirect.redirectType)` classification. -/
def classify (kind url : String) : Outcome :=
  if kind = REDIRECT_TYPE_301 then .Redirect url 301
  else if kind = REDIRECT_TYPE_302 then .Redirect url 302
  else if kind = REDIRECT_TYPE_SERVER_TRANSFER then .Rewrite url
  else .Pass

/-- Rewrite a matched rule and classify the result. -/
def processRedirect (eng : RegexEngine) (regions : List String) (req : Request)
    (r : RedirectInfo) : Except Unit Outcome := do
  let ru ← rewriteUrl eng regions req r
  pure (classify r.redirectType ru)

/-- `edgeConfigHandler` (`createResponse`): skip guards, then match, then
rewrite and classify; `Pass` is `res || NextResponse.next()`. -/
def edgeConfigHandler (eng : RegexEngine) (regions : List String) (req : Request)
    (fetched : Except Unit (Option (List RedirectInfo))) : Except Unit Outcome :=
  if req.disabled then .ok .Pass
  else if req.isPreview || req.excluded then .ok .Pass
  else do
    let found ← getRedirects eng req fetched
    match found with
    | none => pure .Pass
    | some r => processRedirect eng regions req r

/-- `getHandler`: the try/catch wrapper — any error thrown inside
`edgeConfigHandler` is caught and the unmodified next-response is returned. -/
def getHandlerOutcome (eng : RegexEngine) (regions : List String) (req : Request)
    (fetched : Except Unit (Option (List RedirectInfo))) : Outcome :=
  match edgeConfigHandler eng regions req fetched with
  | .ok o => o
  | .error _ => .Pass

/-! ## Helper lemmas -/

theorem ebind_ok {α β : Type} (a : α) (f : α → Except Unit β) :
    (Except.ok a : Except Unit α) >>= f = f a := rfl

theorem ebind_error {α β : Type} (f : α → Except Unit β) :
    (Except.error () : Except Unit α) >>= f = Except.error () := rfl

theorem epure {α : Type} (a : α) : (pure a : Except Unit α) = Except.ok a := rfl

/-- `find` skips a block of rules whose callback returns false. -/
theorem findRedirect_skip (eng : RegexEngine) (req : Request)
    (pre rest : List RedirectInfo)
    (hpre : ∀ p ∈ pre, ruleMatches eng req p = .ok false) :
    findRedirect eng req (pre ++ rest) = findRedirect eng req rest := by
  induction pre with
  | nil => rfl
  | cons p ps ih =>
    have hp : ruleMatches eng req p = .ok false := hpre p (by simp)
    have ih2 := ih (fun q hq => hpre q (by simp [hq]))
    simp only [List.cons_append, findRedirect, hp, ebind_ok]
    simpa using ih2

/-- A non-empty catalog reaches the `find` call. -/
theorem getRedirects_ok_cons (eng : RegexEngine) (req : Request)
    (L : List RedirectInfo) (hL : L ≠ []) :
    getRedirects eng req (.ok (some L)) = findRedirect eng req L := by
  cases L with
  | nil => exact absurd rfl hL
  | cons a as => rfl

theorem splitCh_ne_nil (c : Char) (l : List Char) : splitCh c l ≠ [] := by
  cases l with
  | nil => simp [splitCh]
  | cons x xs =>
    simp only [splitCh]
    by_cases h : x = c <;> simp [h]

/-- Splitting a concatenation whose left part contains no separator. -/
theorem splitCh_append (c : Char) (a b : List Char) (h : ∀ x ∈ a, x ≠ c) :
    splitCh c (a ++ b) = (a ++ (splitCh c b).headD []) :: (splitCh c b).tail := by
  induction a with
  | nil =>
    simp only [List.nil_append]
    cases hsb : splitCh c b with
    | nil => exact absurd hsb (splitCh_ne_nil c b)
    | cons y ys => simp
  | cons x xs ih =>
    have hx : x ≠ c := h x (by simp)
    have ih2 := ih (fun q hq => h q (by simp [hq]))
    simp [splitCh, ih2, hx]

theorem collapseSlashes_id (s : String) (h : s.toList.take 2 ≠ ['/', '/']) :
    collapseSlashes s = s := by
  unfold collapseSlashes
  split
  · rename_i rest heq
    exact absurd (by rw [heq]; rfl) h
  · rfl

/-! ## Concrete engines, requests and rules used by the witnesses -/

/-- An engine that recognises exactly the compiled form of the pattern
`/old` and matches the candidates `/old` and `/old/` (anchored full-match
behaviour: a successful substitution yields the replacement, a failed one
yields the source unchanged). -/
def wEng : RegexEngine where
  test := fun p s =>
    .ok (p == "/^\\/old[\\/]?$/gi" && (s == "/old" || s == "/old/"))
  replace := fun p t s =>
    .ok (if p == "/^\\/old[\\/]?$/gi" && (s == "/old" || s == "/old/") then t else s)

/-- An engine on which every pattern compiles and matches every candidate,
and substitution of an anchored full match yields the replacement. -/
def engAll : RegexEngine where
  test := fun _ _ => .ok true
  replace := fun _ t _ => .ok t

/-- An engine that errors on the compiled form of the authored pattern `(`
(an unclosed group is a regex syntax error, so `regexParser` throws) and
otherwise behaves like an exact matcher for the compiled form of `/legacy`. -/
def cEng : RegexEngine where
  test := fun p s =>
    if p == "/^\\/([\\/]?$/gi" then .error ()
    else .ok (p == "/^\\/legacy[\\/]?$/gi" && (s == "/legacy" || s == "/legacy/"))
  replace := fun p t s =>
    if p == "/^\\/([\\/]?$/gi" then .error ()
    else .ok (if p == "/^\\/legacy[\\/]?$/gi" && (s == "/legacy" || s == "/legacy/") then t else s)

def wReq : Request :=
  { pathname := "/old", search := "", locale := "en", language := "en",
    hostname := "example.com", siteLanguage := "en",
    disabled := false, isPreview := false, excluded := false }

/-- `wReq` with a query string. -/
def wReqQ : Request := { wReq with search := "?a=1" }

def w0 : RedirectInfo :=
  { pattern := "/other", target := "/t0", redirectType := REDIRECT_TYPE_301,
    locale := none, isQueryStringPreserved := true }

def w1 : RedirectInfo :=
  { pattern := "/old", target := "/t1", redirectType := REDIRECT_TYPE_301,
    locale := none, isQueryStringPreserved := true }

def w2 : RedirectInfo :=
  { pattern := "/old", target := "/t2", redirectType := REDIRECT_TYPE_302,
    locale := none, isQueryStringPreserved := true }

def wSrv : RedirectInfo := { w1 with target := "/t3", redirectType := REDIRECT_TYPE_SERVER_TRANSFER }

def wNone : RedirectInfo := { w1 with target := "/t4", redirectType := "None" }

/-- `w1` guarded by locale `fr`. -/
def wFr : RedirectInfo := { w1 with locale := some "fr" }

/-- `w1` guarded by locale `EN` (differs from the request locale only in
case). -/
def wEN : RedirectInfo := { w1 with locale := some "EN" }

def cReq : Request := { wReq with pathname := "/legacy" }

/-- A rule whose authored pattern `(` compiles to a syntactically invalid
regex. -/
def cBad : RedirectInfo :=
  { pattern := "(", target := "/x", redirectType := REDIRECT_TYPE_301,
    locale := none, isQueryStringPreserved := false }

def cGood : RedirectInfo :=
  { pattern := "/legacy", target := "/new", redirectType := REDIRECT_TYPE_301,
    locale := none, isQueryStringPreserved := false }

/-! ## Claims -/

/-- **C1.** For every rule catalog and every request, if two or more rules
both satisfy the match condition, the rule returned by the matcher is the one
earliest in catalog order (with the compiled-pattern mutation applied, as the
source mutates the clone in place), and the resolution outcome is independent
of every rule after it. -/
theorem first_match_wins (eng : RegexEngine) (regions : List String)
    (req : Request) (pre post : List RedirectInfo) (r : RedirectInfo)
    (hpre : ∀ p ∈ pre, ruleMatches eng req p = .ok false)
    (hr : ruleMatches eng req r = .ok true) :
    findRedirect eng req (pre ++ r :: post) = .ok (some (compiledRule req r)) ∧
    getHandlerOutcome eng regions req (.ok (some (pre ++ r :: post))) =
      getHandlerOutcome eng regions req (.ok (some (pre ++ [r]))) := by
  have hfind : ∀ post' : List RedirectInfo,
      findRedirect eng req (pre ++ r :: post') = .ok (some (compiledRule req r)) := by
    intro post'
    rw [findRedirect_skip eng req pre (r :: post') hpre]
    simp [findRedirect, hr, ebind_ok, epure]
  refine ⟨hfind post, ?_⟩
  have g1 : getRedirects eng req (.ok (some (pre ++ r :: post))) =
      .ok (some (compiledRule req r)) := by
    rw [getRedirects_ok_cons eng req _ (by simp), hfind post]
  have g2 : getRedirects eng req (.ok (some (pre ++ [r]))) =
      .ok (some (compiledRule req r)) := by
    rw [getRedirects_ok_cons eng req _ (by simp)]
    exact hfind []
  unfold getHandlerOutcome edgeConfigHandler
  rw [g1, g2]

/-- C1 witness: with a catalog of a non-matching rule followed by two rules
that both match, the matcher returns the first matching rule and the outcome
ignores the rule after it. -/
theorem first_match_wins_witness :
    findRedirect wEng wReq ([w0] ++ w1 :: [w2]) = .ok (some (compiledRule wReq w1)) ∧
    getHandlerOutcome wEng ["en"] wReq (.ok (some ([w0] ++ w1 :: [w2]))) =
      getHandlerOutcome wEng ["en"] wReq (.ok (some ([w0] ++ [w1]))) :=
  first_match_wins wEng ["en"] wReq [w0] [w2] w1
    (by intro p hp; rw [List.mem_singleton.mp hp]; rfl) (by rfl)

/-- **C2.** For every request and every catalog in which no rule matches,
the matcher returns none and the handler resolves to Pass (the unmodified
next-response). -/
theorem no_match_passes (eng : RegexEngine) (regions : List String)
    (req : Request) (rules : List RedirectInfo)
    (h : ∀ r ∈ rules, ruleMatches eng req r = .ok false) :
    getRedirects eng req (.ok (some rules)) = .ok none ∧
    getHandlerOutcome eng regions req (.ok (some rules)) = .Pass := by
  have hf : findRedirect eng req rules = .ok none := by
    have := findRedirect_skip eng req rules [] h
    simpa using this
  have hg : getRedirects eng req (.ok (some rules)) = .ok none := by
    cases rules with
    | nil => rfl
    | cons a as => rw [getRedirects_ok_cons eng req _ (by simp)]; exact hf
  refine ⟨hg, ?_⟩
  unfold getHandlerOutcome edgeConfigHandler
  rw [hg]
  cases req.disabled <;> cases req.isPreview <;> cases req.excluded <;> rfl

/-- C2 witness: a catalog whose single rule does not match the request
resolves to Pass. -/
theorem no_match_passes_witness :
    getRedirects wEng wReq (.ok (some [w0])) = .ok none ∧
    getHandlerOutcome wEng ["en"] wReq (.ok (some [w0])) = .Pass :=
  no_match_passes wEng ["en"] wReq [w0]
    (by intro p hp; rw [List.mem_singleton.mp hp]; rfl)

/-- **C3.** For every rule whose `locale` field is set: if it differs
case-insensitively from the request locale, the rule never matches (whatever
the four candidate tests return, as long as the pattern compiled); if they
are equal case-insensitively, the locale filter passes. -/
theorem locale_filter_gates (eng : RegexEngine) (req : Request)
    (r : RedirectInfo) (l : String) (hl : r.locale = some l)
    (b1 b2 b3 b4 : Bool)
    (h1 : eng.test (compilePattern req.language r.pattern) req.pathname = .ok b1)
    (h2 : eng.test (compilePattern req.language r.pattern)
      (req.pathname ++ req.search) = .ok b2)
    (h3 : eng.test (compilePattern req.language r.pattern)
      ("/" ++ req.locale ++ req.pathname) = .ok b3)
    (h4 : eng.test (compilePattern req.language r.pattern)
      ("/" ++ req.locale ++ req.pathname ++ req.search) = .ok b4) :
    (lcStr l ≠ lcStr req.locale → ruleMatches eng req r = .ok false) ∧
    (lcStr l = lcStr req.locale → localeFilter r req = true) := by
  constructor
  · intro hne
    have hlf : localeFilter r req = false := by
      simp [localeFilter, hl, hne]
    simp only [ruleMatches, h1, h2, h3, h4, ebind_ok, epure]
    cases b1 <;> cases b2 <;> cases b3 <;> cases b4 <;>
      simp [ebind_ok, epure, hlf]
  · intro heq
    simp [localeFilter, hl, heq]

/-- C3 witness: a rule restricted to locale `fr` does not match an `en`
request even though its pattern matches the path candidate, and a rule
restricted to locale `EN` passes the filter on an `en` request. -/
theorem locale_filter_gates_witness :
    ruleMatches wEng wReq wFr = .ok false ∧ localeFilter wEN wReq = true :=
  ⟨(locale_filter_gates wEng wReq wFr "fr" rfl true true false false
      rfl rfl rfl rfl).1 (by decide),
   (locale_filter_gates wEng wReq wEN "EN" rfl true true false false
      rfl rfl rfl rfl).2 (by decide)⟩

/-- **C4.** For every matched rule (skip guards off, matcher returned `r`):
when the rewrite step succeeds with URL `u`, kind `REDIRECT_301` yields
`Redirect u 301`, kind `REDIRECT_302` yields `Redirect u 302`, and
`SERVER_TRANSFER` yields `Rewrite u`; any other kind yields Pass whether or
not the rewrite succeeds. -/
theorem outcome_by_kind (eng : RegexEngine) (regions : List String)
    (req : Request) (fetched : Except Unit (Option (List RedirectInfo)))
    (r : RedirectInfo) (u : String)
    (hnd : req.disabled = false) (hnp : req.isPreview = false)
    (hne : req.excluded = false)
    (hfound : getRedirects eng req fetched = .ok (some r)) :
    (rewriteUrl eng regions req r = .ok u →
      (r.redirectType = REDIRECT_TYPE_301 →
        getHandlerOutcome eng regions req fetched = .Redirect u 301) ∧
      (r.redirectType = REDIRECT_TYPE_302 →
        getHandlerOutcome eng regions req fetched = .Redirect u 302) ∧
      (r.redirectType = REDIRECT_TYPE_SERVER_TRANSFER →
        getHandlerOutcome eng regions req fetched = .Rewrite u)) ∧
    (r.redirectType ≠ REDIRECT_TYPE_301 → r.redirectType ≠ REDIRECT_TYPE_302 →
      r.redirectType ≠ REDIRECT_TYPE_SERVER_TRANSFER →
      getHandlerOutcome eng regions req fetched = .Pass) := by
  have hout : getHandlerOutcome eng regions req fetched =
      match processRedirect eng regions req r with
      | .ok o => o
      | .error _ => .Pass := by
    unfold getHandlerOutcome edgeConfigHandler
    rw [hnd, hnp, hne, hfound]
    rfl
  constructor
  · intro hu
    have hp : processRedirect eng regions req r = .ok (classify r.redirectType u) := by
      unfold processRedirect
      rw [hu]
      rfl
    rw [hout, hp]
    refine ⟨fun hk => ?_, fun hk => ?_, fun hk => ?_⟩ <;>
      simp [classify, hk, REDIRECT_TYPE_301, REDIRECT_TYPE_302,
        REDIRECT_TYPE_SERVER_TRANSFER]
  · intro hk1 hk2 hk3
    rw [hout]
    cases hrw : rewriteUrl eng regions req r with
    | error e =>
      have hp : processRedirect eng regions req r = .error e := by
        unfold processRedirect; rw [hrw]; rfl
      rw [hp]
    | ok v =>
      have hp : processRedirect eng regions req r = .ok (classify r.redirectType v) := by
        unfold processRedirect; rw [hrw]; rfl
      rw [hp]
      simp [classify, hk1, hk2, hk3]

/-- C4 witness: the four kinds on otherwise identical matched rules produce
301, 302, rewrite and pass outcomes respectively. -/
theorem outcome_by_kind_witness :
    getHandlerOutcome wEng ["en"] wReq (.ok (some [w1])) =
      .Redirect "https://example.com/t1" 301 ∧
    getHandlerOutcome wEng ["en"] wReq (.ok (some [w2])) =
      .Redirect "https://example.com/t2" 302 ∧
    getHandlerOutcome wEng ["en"] wReq (.ok (some [wSrv])) =
      .Rewrite "https://example.com/t3" ∧
    getHandlerOutcome wEng ["en"] wReq (.ok (some [wNone])) = .Pass :=
  ⟨((outcome_by_kind wEng ["en"] wReq (.ok (some [w1])) (compiledRule wReq w1)
      "https://example.com/t1" rfl rfl rfl (by rfl)).1 (by rfl)).1 rfl,
   ((outcome_by_kind wEng ["en"] wReq (.ok (some [w2])) (compiledRule wReq w2)
      "https://example.com/t2" rfl rfl rfl (by rfl)).1 (by rfl)).2.1 rfl,
   ((outcome_by_kind wEng ["en"] wReq (.ok (some [wSrv])) (compiledRule wReq wSrv)
      "https://example.com/t3" rfl rfl rfl (by rfl)).1 (by rfl)).2.2 rfl,
   (outcome_by_kind wEng ["en"] wReq (.ok (some [wNone])) (compiledRule wReq wNone)
      "" rfl rfl rfl (by rfl)).2 (by decide) (by decide) (by decide)⟩

/-- **C5 counterexample.** A catalog holding a rule whose authored pattern
`(` compiles to an invalid regex, followed by a matching rule, resolves to
Pass: the compilation failure is not localized, and the later matching rule
does not produce its redirect outcome (alone it would produce a 301). -/
theorem compile_error_not_localized :
    ruleMatches cEng cReq cBad = .error () ∧
    ruleMatches cEng cReq cGood = .ok true ∧
    getHandlerOutcome cEng ["en"] cReq (.ok (some [cBad, cGood])) = .Pass ∧
    getHandlerOutcome cEng ["en"] cReq (.ok (some [cGood])) =
      .Redirect "https://example.com/new" 301 := by
  refine ⟨rfl, rfl, rfl, rfl⟩

/-- **C5 (amended).** A pattern-compilation failure aborts evaluation of the
whole catalog: rules before the failing one are evaluated normally, but the
exception propagates out of the matcher (rules after it, matching or not, are
never reached) and is caught at the handler boundary, resolving the request
to Pass. -/
theorem compile_error_aborts (eng : RegexEngine) (regions : List String)
    (req : Request) (pre post : List RedirectInfo) (r : RedirectInfo)
    (hpre : ∀ p ∈ pre, ruleMatches eng req p = .ok false)
    (herr : ruleMatches eng req r = .error ()) :
    findRedirect eng req (pre ++ r :: post) = .error () ∧
    getHandlerOutcome eng regions req (.ok (some (pre ++ r :: post))) = .Pass := by
  have hfind : findRedirect eng req (pre ++ r :: post) = .error () := by
    rw [findRedirect_skip eng req pre (r :: post) hpre]
    simp [findRedirect, herr, ebind_error]
  refine ⟨hfind, ?_⟩
  have g1 : getRedirects eng req (.ok (some (pre ++ r :: post))) = .error () := by
    rw [getRedirects_ok_cons eng req _ (by simp)]; exact hfind
  unfold getHandlerOutcome edgeConfigHandler
  rw [g1]
  cases req.disabled <;> cases req.isPreview <;> cases req.excluded <;> rfl

/-- C5 amended-claim witness: with no rules before the failing one and a
matching rule after it, the matcher errors and the handler passes. -/
theorem compile_error_aborts_witness :
    findRedirect cEng cReq ([] ++ cBad :: [cGood]) = .error () ∧
    getHandlerOutcome cEng ["en"] cReq (.ok (some ([] ++ cBad :: [cGood]))) = .Pass :=
  compile_error_aborts cEng ["en"] cReq [] [cGood] cBad
    (by intro p hp; cases hp) (by rfl)

/-- **C6.** For every request, if the catalog read fails (the store read or
`JSON.parse` threw), or yields an absent value, or an empty rule array, the
handler resolves to Pass; no error passes the handler boundary
(`getHandlerOutcome` is total by construction — the catch in `getHandler`
maps every thrown error to the unmodified next-response). -/
theorem catalog_unavailable_passes (eng : RegexEngine) (regions : List String)
    (req : Request) (fetched : Except Unit (Option (List RedirectInfo)))
    (h : fetched = .error () ∨ fetched = .ok none ∨ fetched = .ok (some [])) :
    getHandlerOutcome eng regions req fetched = .Pass := by
  unfold getHandlerOutcome edgeConfigHandler
  rcases h with rfl | rfl | rfl <;>
    cases req.disabled <;> cases req.isPreview <;> cases req.excluded <;> rfl

/-- C6 witness: the three unavailable-catalog shapes each resolve to Pass. -/
theorem catalog_unavailable_passes_witness :
    getHandlerOutcome wEng ["en"] wReq (.error ()) = .Pass ∧
    getHandlerOutcome wEng ["en"] wReq (.ok none) = .Pass ∧
    getHandlerOutcome wEng ["en"] wReq (.ok (some [])) = .Pass :=
  ⟨catalog_unavailable_passes wEng ["en"] wReq (.error ()) (.inl rfl),
   catalog_unavailable_passes wEng ["en"] wReq (.ok none) (.inr (.inl rfl)),
   catalog_unavailable_passes wEng ["en"] wReq (.ok (some [])) (.inr (.inr rfl))⟩

/-- **C7.** For every matched rule with a relative target whose substitution
succeeds yielding `s`: the final search params are the preserved originals
(all of them when `isQueryStringPreserved`, none otherwise) with the
parameters introduced by the substituted target appended — union, not
replace, duplicates allowed. -/
theorem query_merge (eng : RegexEngine) (regions : List String) (req : Request)
    (r : RedirectInfo) (s : String)
    (habs : isAbsoluteUrl (siteLangStep req r.target) = false)
    (hrep : eng.replace r.pattern
      (regionStep regions req.locale (siteLangStep req r.target)).1
      (req.pathname ++ req.search) = .ok s) :
    ∃ u, buildUrl eng regions req r = .ok u ∧
      u.searchParams =
        (if r.isQueryStringPreserved then parseQuery req.search else []) ++
          templateParams s ∧
      (r.isQueryStringPreserved = true →
        ∀ kv ∈ parseQuery req.search, kv ∈ u.searchParams) ∧
      (r.isQueryStringPreserved = false → u.searchParams = templateParams s) := by
  have hb : buildUrl eng regions req r = .ok
      { hrefAbs := none, pathname := pathPart s,
        searchParams :=
          (if r.isQueryStringPreserved then parseQuery req.search else []) ++
            templateParams s,
        locale := (regionStep regions req.locale (siteLangStep req r.target)).2 } := by
    unfold buildUrl
    rw [if_neg (by simp [habs])]
    simp only [hrep, ebind_ok, epure]
  refine ⟨_, hb, rfl, fun hp kv hkv => ?_, fun hp => ?_⟩
  · simp only [hp, if_pos]
    exact List.mem_append_left _ hkv
  · simp [hp]

/-- C7 witness: with the original query `?a=1` preserved and a template
introducing no parameters, the parameter `a=1` survives into the final URL
params. -/
theorem query_merge_witness :
    ∃ u, buildUrl engAll ["en"] wReqQ (compiledRule wReqQ w1) = .ok u ∧
      u.searchParams =
        (if (compiledRule wReqQ w1).isQueryStringPreserved
          then parseQuery wReqQ.search else []) ++ templateParams "/t1" ∧
      ((compiledRule wReqQ w1).isQueryStringPreserved = true →
        ∀ kv ∈ parseQuery wReqQ.search, kv ∈ u.searchParams) ∧
      ((compiledRule wReqQ w1).isQueryStringPreserved = false →
        u.searchParams = templateParams "/t1") :=
  query_merge engAll ["en"] wReqQ (compiledRule wReqQ w1) "/t1" (by rfl) (by rfl)

/-- **C8.** For every matched rule whose (site-language-substituted) target
is an absolute URL, the built URL is exactly that target — the path
substitution, region/locale handling and query merging of the relative
branch are not applied, and the serialized href is the target itself; when
the target carries no `$siteLang` token it is the authored target verbatim. -/
theorem absolute_target_verbatim (eng : RegexEngine) (regions : List String)
    (req : Request) (r : RedirectInfo)
    (habs : isAbsoluteUrl (siteLangStep req r.target) = true) :
    buildUrl eng regions req r = .ok
      { hrefAbs := some (siteLangStep req r.target), pathname := req.pathname,
        searchParams := parseQuery req.search, locale := req.locale } ∧
    hrefOf req
      { hrefAbs := some (siteLangStep req r.target), pathname := req.pathname,
        searchParams := parseQuery req.search, locale := req.locale } =
      siteLangStep req r.target ∧
    (hasSiteLang r.target = false → siteLangStep req r.target = r.target) := by
  refine ⟨?_, rfl, fun h => ?_⟩
  · unfold buildUrl
    rw [if_pos (by simp [habs])]
  · simp [siteLangStep, h]

/-- C8 witness: a rule with target `https://other.example/new` rewrites to
exactly that URL. -/
theorem absolute_target_verbatim_witness :
    buildUrl wEng ["en"] wReq
      { w1 with target := "https://other.example/new" } = .ok
      { hrefAbs := some (siteLangStep wReq "https://other.example/new"),
        pathname := wReq.pathname, searchParams := parseQuery wReq.search,
        locale := wReq.locale } ∧
    hrefOf wReq
      { hrefAbs := some (siteLangStep wReq "https://other.example/new"),
        pathname := wReq.pathname, searchParams := parseQuery wReq.search,
        locale := wReq.locale } =
      siteLangStep wReq "https://other.example/new" ∧
    (hasSiteLang "https://other.example/new" = false →
      siteLangStep wReq "https://other.example/new" = "https://other.example/new") :=
  absolute_target_verbatim wEng ["en"] wReq
    { w1 with target := "https://other.example/new" } (by rfl)

/-- **C9.** For every matched rule with a relative target: when the target's
first path segment is one of the configured regions, it becomes the output
URL locale and the substitution template is the target with that segment
removed; when it is not a configured region, the target is left untouched
and the output locale is the request locale. -/
theorem region_segment_override (eng : RegexEngine) (regions : List String)
    (req : Request) (r : RedirectInfo) (seg s : String)
    (habs : isAbsoluteUrl (siteLangStep req r.target) = false)
    (hseg : (splitSlash (siteLangStep req r.target)).get? 1 = some seg) :
    (regions.contains seg = true →
      regionStep regions req.locale (siteLangStep req r.target) =
        (replaceFirst (siteLangStep req r.target) ("/" ++ seg) "", seg) ∧
      (eng.replace r.pattern (replaceFirst (siteLangStep req r.target) ("/" ++ seg) "")
          (req.pathname ++ req.search) = .ok s →
        ∃ u, buildUrl eng regions req r = .ok u ∧ u.locale = seg)) ∧
    (regions.contains seg = false →
      regionStep regions req.locale (siteLangStep req r.target) =
        (siteLangStep req r.target, req.locale) ∧
      (eng.replace r.pattern (siteLangStep req r.target)
          (req.pathname ++ req.search) = .ok s →
        ∃ u, buildUrl eng regions req r = .ok u ∧ u.locale = req.locale)) := by
  constructor
  · intro hin
    have hrs : regionStep regions req.locale (siteLangStep req r.target) =
        (replaceFirst (siteLangStep req r.target) ("/" ++ seg) "", seg) := by
      unfold regionStep
      rw [hseg]
      have hmem : seg ∈ regions := by simpa using hin
      simp [hmem]
    refine ⟨hrs, fun hrep => ?_⟩
    refine ⟨Url.mk none (pathPart s)
      ((if r.isQueryStringPreserved then parseQuery req.search else []) ++
        templateParams s) seg, ?_, rfl⟩
    unfold buildUrl
    rw [if_neg (by simp [habs])]
    simp only [hrs, hrep, ebind_ok, epure]
  · intro hout
    have hrs : regionStep regions req.locale (siteLangStep req r.target) =
        (siteLangStep req r.target, req.locale) := by
      unfold regionStep
      rw [hseg]
      have hmem : seg ∉ regions := by simpa using hout
      simp [hmem]
    refine ⟨hrs, fun hrep => ?_⟩
    refine ⟨Url.mk none (pathPart s)
      ((if r.isQueryStringPreserved then parseQuery req.search else []) ++
        templateParams s) req.locale, ?_, rfl⟩
    unfold buildUrl
    rw [if_neg (by simp [habs])]
    simp only [hrs, hrep, ebind_ok, epure]

/-- C9 witness: with configured regions `["uk"]`, a target `/uk/page` sets
the output locale to `uk` (template `/page`), while a target `/fr/page`
leaves the target untouched and keeps the request locale `en`. -/
theorem region_segment_override_witness :
    (∃ u, buildUrl wEng ["uk"] wReq
        (compiledRule wReq { w1 with target := "/uk/page" }) = .ok u ∧
      u.locale = "uk") ∧
    (∃ u, buildUrl wEng ["uk"] wReq
        (compiledRule wReq { w1 with target := "/fr/page" }) = .ok u ∧
      u.locale = wReq.locale) :=
  ⟨((region_segment_override wEng ["uk"] wReq
      (compiledRule wReq { w1 with target := "/uk/page" }) "uk" "/page"
      (by rfl) (by rfl)).1 (by rfl)).2 (by rfl),
   ((region_segment_override wEng ["uk"] wReq
      (compiledRule wReq { w1 with target := "/fr/page" }) "fr" "/fr/page"
      (by rfl) (by rfl)).2 (by rfl)).2 (by rfl)⟩

/-- When the source string is a `?`-free path followed by an empty-or-`?`-led
query and does not begin with `//`, its path part is exactly the path. -/
theorem pathPart_source (p q : String)
    (hp : ∀ ch ∈ p.toList, ch ≠ '?')
    (hq : q = "" ∨ q.toList.take 1 = ['?'])
    (h2 : (p ++ q).toList.take 2 ≠ ['/', '/']) :
    pathPart (p ++ q) = p := by
  have hdata : (p ++ q).toList = p.toList ++ q.toList := by
    cases p; cases q; rfl
  unfold pathPart
  rw [collapseSlashes_id _ h2]
  unfold splitQ
  rw [hdata, splitCh_append '?' p.toList q.toList hp]
  have hqh : (splitCh '?' q.toList).headD [] = [] := by
    rcases hq with rfl | hq1
    · rfl
    · cases hql : q.toList with
      | nil => rfl
      | cons c cs =>
        have hc : c = '?' := by rw [hql] at hq1; simpa using hq1
        subst hc
        simp [splitCh]
  rw [hqh]
  simp

/-- **C10.** For every rule selected through a candidate other than
path+query (so the compiled pattern does not match the source
`path ++ search`), the anchored substitution leaves the source unchanged
(`replace` on a non-matching regex is the identity — taken as the engine
consistency law), so the final URL's path equals the original request path
and the rule's target is not substituted into it. -/
theorem unmatched_source_keeps_path (eng : RegexEngine) (regions : List String)
    (req : Request) (r : RedirectInfo)
    (hp : ∀ ch ∈ req.pathname.toList, ch ≠ '?')
    (hq : req.search = "" ∨ req.search.toList.take 1 = ['?'])
    (h2 : (req.pathname ++ req.search).toList.take 2 ≠ ['/', '/'])
    (habs : isAbsoluteUrl (siteLangStep req r.target) = false)
    (hnm : eng.test r.pattern (req.pathname ++ req.search) = .ok false)
    (hcons : ∀ pt tt st, eng.test pt st = .ok false →
      eng.replace pt tt st = .ok st) :
    ∃ u, buildUrl eng regions req r = .ok u ∧ u.pathname = req.pathname := by
  have hrep := hcons r.pattern
    (regionStep regions req.locale (siteLangStep req r.target)).1
    (req.pathname ++ req.search) hnm
  refine ⟨Url.mk none (pathPart (req.pathname ++ req.search))
    ((if r.isQueryStringPreserved then parseQuery req.search else []) ++
      templateParams (req.pathname ++ req.search))
    (regionStep regions req.locale (siteLangStep req r.target)).2, ?_, ?_⟩
  · unfold buildUrl
    rw [if_neg (by simp [habs])]
    simp only [hrep, ebind_ok, epure]
  · exact pathPart_source _ _ hp hq h2

/-- The witness engine satisfies the no-match-is-identity law of JS
`String.prototype.replace`. -/
theorem wEng_noMatch_id : ∀ pt tt st : String, wEng.test pt st = .ok false →
    wEng.replace pt tt st = .ok st := by
  intro pt tt st h
  simp only [wEng, Except.ok.injEq] at h
  simp only [wEng, h]
  rfl

/-- C10 witness: the rule for `/old` matched via the path-only candidate on a
request carrying query `?a=1`; the substitution over `/old?a=1` does not
fire, and the resulting path is the original `/old`. -/
theorem unmatched_source_keeps_path_witness :
    ∃ u, buildUrl wEng ["en"] wReqQ (compiledRule wReqQ w1) = .ok u ∧
      u.pathname = wReqQ.pathname :=
  unmatched_source_keeps_path wEng ["en"] wReqQ (compiledRule wReqQ w1)
    (by decide) (.inr rfl) (by decide) (by rfl) (by rfl) wEng_noMatch_id
